import Mathlib

/-!
# Verification of the Tempesta TLS MPI memory-pool allocator (src/tls/mpool.c)

This file is a shallow embedding of `src/tls/mpool.c`: the fixed-capacity
bump allocator for multi-precision-integer (MPI) cryptographic state used
during TLS key-exchange handshakes.  Pointers are modelled as `Nat`
addresses, `size_t` fields as `Nat`, byte memory as functions `Nat → Nat`
(byte content at an offset), and fallible operations return `Option`.

Conventions taken from the source:
* `PAGE_SIZE = 4096`, `PAGE_SHIFT = 12` (x86-64), `PAGE_MASK = ~(PAGE_SIZE-1)`;
  hence `a & PAGE_MASK = a - a % 4096` and `a & ~PAGE_MASK = a % 4096`.
* `sizeof(TlsMpiPool) = 16` (two 8-byte `size_t` fields `curr` and `size`).
* `MCTX_ORDER = 0`, so every pool occupies exactly one page.
-/

/-- `PAGE_SIZE` on the target architecture (x86-64). -/
def PAGE_SIZE : Nat := 4096

/-- `MCTX_ORDER 0`: one page per pool. -/
def MCTX_ORDER : Nat := 0

/-- `sizeof(TlsMpiPool)`: two 8-byte `size_t` fields on x86-64. -/
def sizeof_TlsMpiPool : Nat := 16

/-- The header of an MPI memory pool, `struct tls_mpi_profile_t`.
`curr` is documented in the source as "offset of free memory area for MPI
allocations" and `size` as "size of the profile to allocate and copy for a
particular handshake". -/
structure TlsMpiPool where
  curr : Nat
  size : Nat
deriving DecidableEq, Repr

/-- `MPI_POOL_DATA(mp)`: the address of the data area of the pool whose page
starts at `base`, i.e. `(char *)mp + sizeof(TlsMpiPool)`. -/
def MPI_POOL_DATA (base : Nat) : Nat := base + sizeof_TlsMpiPool

/-- `MPI_POOL_FREE_PTR(mp)`: `(char *)mp + sizeof(TlsMpiPool) + mp->curr`. -/
def MPI_POOL_FREE_PTR (base : Nat) (mp : TlsMpiPool) : Nat :=
  base + sizeof_TlsMpiPool + mp.curr

/-- `ttls_mpi_pool_init(mp)`.  The source executes
`mp->curr = MPI_POOL_DATA(mp); mp->size = 0;` — i.e. it stores the *address*
of the pool's data area (the pointer value, converted to `size_t`) in the
`curr` field, and zeroes `size`.  `base` is the address of the pool page. -/
def ttls_mpi_pool_init (base : Nat) : TlsMpiPool :=
  { curr := MPI_POOL_DATA base, size := 0 }

/-- The body of `ttls_mpi_profile_alloc_mpi(x, n)` once the owning pool `mp`
(at page address `base`) has been resolved:

  if (WARN_ON_ONCE(sizeof(*mp) + mp->size + n > PAGE_SIZE)) return -ENOMEM;
  ptr = MPI_POOL_FREE_PTR(mp);  mp->curr += n;  mp->size += n;

`none` models the `-ENOMEM` return (the pool is left untouched).  On success
we return the *address* `ptr` of the grabbed area (the C function returns the
distance `ptr - x` from the MPI struct `x`; the address is `x` plus that
distance, so `ptr` itself).  The `BUG_ON(x >= ptr)` assertion concerns the
MPI struct address `x`, not the pool state, and is not modelled. -/
def ttls_mpi_profile_alloc_mpi (base : Nat) (mp : TlsMpiPool) (n : Nat) :
    Option (Nat × TlsMpiPool) :=
  if sizeof_TlsMpiPool + mp.size + n > PAGE_SIZE then
    none
  else
    some (MPI_POOL_FREE_PTR base mp, { curr := mp.curr + n, size := mp.size + n })

/-- A pool header together with the byte contents of its data area:
`data j` is the byte at offset `j` from `MPI_POOL_DATA`. -/
structure PoolMem where
  pool : TlsMpiPool
  data : Nat → Nat

/-- `bzero_fast(f, len)`: zero the first `len` bytes of a region. -/
def bzero_region (f : Nat → Nat) (len : Nat) : Nat → Nat :=
  fun j => if j < len then 0 else f j

/-- `ttls_mpi_cleanup_ctx()` applied to the current CPU's temporary pool:

  BUG_ON(mp->curr > mp->size);  bzero_fast(data, mp->curr);  mp->curr = 0;

`none` models the `BUG_ON` firing.  Note that `mp->size` is *not* reset.
(The source's other assertion `BUG_ON(mp->mem_alloc < data)` references a
field `mem_alloc` that does not exist in `TlsMpiPool` and cannot compile;
it is omitted.) -/
def ttls_mpi_cleanup_ctx (pm : PoolMem) : Option PoolMem :=
  if pm.pool.curr > pm.pool.size then
    none
  else
    some { pool := { curr := 0, size := pm.pool.size },
           data := bzero_region pm.data pm.pool.curr }

/-- `addr & PAGE_MASK`: round an address down to its containing page
boundary, as `ttls_mpi_free_mpool` computes it. -/
def pageAlign (a : Nat) : Nat := a - a % PAGE_SIZE

/-- Contents of the page released by `ttls_mpi_free_mpool(ctx)`:
`bzero_fast((void *)addr, PAGE_SIZE << MCTX_ORDER); free_pages(addr, ...)` —
the whole page is zeroed before it is returned to the buddy allocator. -/
def ttls_mpi_free_mpool_released (page : Nat → Nat) : Nat → Nat :=
  bzero_region page (PAGE_SIZE <<< MCTX_ORDER)

/-- Contents of a *profile* pool page released by `ttls_mpool_exit()`:
the loop over `mpi_profiles` calls `free_pages` directly, with no zeroing,
so the page is released with its contents intact. -/
def ttls_mpool_exit_profile_released (page : Nat → Nat) : Nat → Nat := page

/-- Contents of a per-CPU temporary pool page released by `ttls_mpool_exit()`:
`memset(MPI_POOL_DATA(*ptr), 0, (*ptr)->curr)` zeroes only the `curr`
consumed bytes of the data area (offsets `[16, 16 + curr)` of the page);
the header and everything above `curr` are released as they are. -/
def ttls_mpool_exit_tmp_released (mp : TlsMpiPool) (page : Nat → Nat) : Nat → Nat :=
  fun j => if sizeof_TlsMpiPool ≤ j ∧ j < sizeof_TlsMpiPool + mp.curr then 0 else page j

/-- Result of `__mpi_pool(addr)`: either the current CPU's temporary pool
(`*this_cpu_ptr(&g_tmp_mpool)`) or the pool "at" a computed address. -/
inductive MpiPoolRef
  | tmp
  | poolAt (addr : Nat)
deriving DecidableEq, Repr

/-- `__mpi_pool(addr)` (the source declares it as `__mpi_pool` and calls it
as `__mpi_profile`; both clearly denote this function):

  a = (unsigned long)addr;  sp = (unsigned long)&a;
  if (sp < a && a < sp + 2 * PAGE_SIZE)  /* max kernel stack is 2 pages */
    return *this_cpu_ptr(&g_tmp_mpool);
  return (TlsMpiPool *)(a & ~PAGE_MASK);

`sp` (the address of the local `a`) is passed explicitly.  Note the else
branch computes `a & ~PAGE_MASK = a % PAGE_SIZE`, the low 12 bits of the
address, not the containing page boundary `a & PAGE_MASK`. -/
def __mpi_pool (addr sp : Nat) : MpiPoolRef :=
  if sp < addr ∧ addr < sp + 2 * PAGE_SIZE then
    .tmp
  else
    .poolAt (addr % PAGE_SIZE)

/-- C9: `ttls_mpi_pool_init` is claimed to set the pool's allocation offset
to zero (and record the capacity, performing no allocation).  On the code,
for a pool page at address 4096, init stores `MPI_POOL_DATA(mp) = 4112` —
the address of the data area — into the offset field `curr`, which is not
zero, and stores 0 into `size`; no capacity is recorded anywhere. -/
theorem pool_init_offset_not_zero :
    ttls_mpi_pool_init 4096 = { curr := 4112, size := 0 } ∧
    (ttls_mpi_pool_init 4096).curr ≠ 0 ∧
    (ttls_mpi_pool_init 4096).size = 0 := by
  decide

/-- C2: `__mpi_pool` is claimed to return, for a non-stack address, the pool
whose base is the address masked down to its containing page boundary.  For
the address `0x5010 = 20496` (with the stack pointer far away at `0x100000`,
so the stack-window branch is not taken) the code returns the pool "at"
`20496 & ~PAGE_MASK = 16`, the offset *within* the page, whereas the
containing page boundary is `pageAlign 20496 = 20480`.  A stack-window
address (`sp < a < sp + 2*PAGE_SIZE`) does resolve to the temporary pool. -/
theorem mpi_pool_mask_polarity :
    __mpi_pool 20496 1048576 = .poolAt 16 ∧
    pageAlign 20496 = 20480 ∧
    __mpi_pool 20496 1048576 ≠ .poolAt (pageAlign 20496) ∧
    __mpi_pool 1048600 1048576 = .tmp := by
  decide

/-- C3: `destroy`/`teardown` are claimed to leave every reclaimed region
fully zeroed.  `ttls_mpi_free_mpool` does zero the whole page before
releasing it, but `ttls_mpool_exit` releases profile-pool pages without any
zeroing: a page whose every byte is 7 is released with byte 7 still at
offset 100.  For per-CPU temporary pools, exit zeroes only the `curr`
consumed bytes of the data area, so a pool with `curr = 0` is released with
its data bytes untouched. -/
theorem mpool_exit_releases_unzeroed_profile :
    ttls_mpool_exit_profile_released (fun _ => 7) 100 = 7 ∧
    ttls_mpi_free_mpool_released (fun _ => 7) 100 = 0 ∧
    ttls_mpool_exit_tmp_released { curr := 0, size := 0 } (fun _ => 9) 16 = 9 := by
  decide

/-- C1: `allocate` is claimed to fail exactly when `offset + size > capacity`
(offset = `curr`, capacity = `PAGE_SIZE - sizeof(TlsMpiPool) = 4080`).
On the code, starting from a fresh zeroed pool, `allocate(4080)` succeeds and
fills the pool; `ttls_mpi_cleanup_ctx` then resets `curr` to 0 but leaves
`size = 4080`; a subsequent `allocate(16)` returns `-ENOMEM` because the
check uses the never-reset `size` accumulator, even though the offset is 0
and `0 + 16 ≤ 4080`. -/
theorem alloc_oom_despite_offset_within_capacity :
    ttls_mpi_profile_alloc_mpi 0 { curr := 0, size := 0 } 4080 =
      some (16, { curr := 4080, size := 4080 }) ∧
    (ttls_mpi_cleanup_ctx ⟨{ curr := 4080, size := 4080 }, fun _ => 0⟩).map PoolMem.pool =
      some { curr := 0, size := 4080 } ∧
    ttls_mpi_profile_alloc_mpi 0 { curr := 0, size := 4080 } 16 = none ∧
    0 + 16 ≤ PAGE_SIZE - sizeof_TlsMpiPool := by
  decide

/-- C5: `reset` is claimed to zero exactly the consumed region, set the
offset to zero, and make a following `allocate(n)` (any `n` within capacity)
return the pool's very first address.  On the code, cleaning up a fully
consumed pool (`curr = size = 4080`, data byte at offset `j` equal to
`j + 1`) does zero exactly the consumed region (`data 0 = data 4079 = 0`,
`data 4080 = 4081` untouched) and sets `curr = 0`, but the follow-up
`allocate(16)` — `16` is within the capacity `4080` — fails with `-ENOMEM`
instead of returning the first address, because `size` was not reset. -/
theorem cleanup_then_alloc_fails :
    (ttls_mpi_cleanup_ctx ⟨{ curr := 4080, size := 4080 }, fun j => j + 1⟩).map
        (fun q => (q.pool.curr, q.pool.size, q.data 0, q.data 4079, q.data 4080)) =
      some (0, 4080, 0, 0, 4081) ∧
    ttls_mpi_profile_alloc_mpi 0 { curr := 0, size := 4080 } 16 = none := by
  decide

/-- Outcome of `ttls_mpool_init()`. -/
inductive InitOutcome
  | ok
  | enomem
  | crash
deriving DecidableEq, Repr

/-- The per-CPU loop of `ttls_mpool_exit()`:

  for_each_possible_cpu(i) {
    TlsMpiPool **ptr = per_cpu_ptr(&g_tmp_pool, i);
    memset(MPI_POOL_DATA(*ptr), 0, (*ptr)->curr);
    free_pages((unsigned long)*ptr, MCTX_ORDER);
  }

Each slot holds the page address of that CPU's pool, or `none` for a slot
still NULL.  `*ptr` is dereferenced unconditionally: on a `none` slot the
`(*ptr)->curr` read is a NULL dereference, modelled as `false` (crash);
`true` means the loop completed. -/
def ttls_mpool_exit_cpus : List (Option Nat) → Bool
  | [] => true
  | none :: _ => false
  | some _ :: rest => ttls_mpool_exit_cpus rest

/-- The allocation loop of `ttls_mpool_init()`.  `allocs` gives, per CPU, the
result of `__get_free_pages` (`none` = allocation failure).  The per-CPU
slots start NULL; the loop fills them in order and stops at the first
failure (`goto err_cleanup`), leaving that slot and all later ones NULL.
Returns the slot table plus whether every allocation succeeded. -/
def initSlots : List (Option Nat) → List (Option Nat) × Bool
  | [] => ([], true)
  | some a :: rest =>
    match initSlots rest with
    | (s, ok) => (some a :: s, ok)
  | none :: rest => (none :: rest.map (fun _ => none), false)

/-- `ttls_mpool_init()`: on full success return 0; on a failed per-CPU
allocation, `goto err_cleanup` runs `ttls_mpool_exit()` over *all* possible
CPUs (no profile pool exists yet, so only the per-CPU loop matters) and then
returns `-ENOMEM` — unless that loop dereferences a NULL slot first. -/
def ttls_mpool_init_model (allocs : List (Option Nat)) : InitOutcome :=
  match initSlots allocs with
  | (slots, ok) =>
    if ok then .ok
    else if ttls_mpool_exit_cpus slots then .enomem else .crash

/-- C10: subsystem init is claimed to be atomic on failure — release the
already-allocated per-worker pools and return out-of-memory cleanly.  On the
code, with two workers where CPU 0's page allocation succeeds and CPU 1's
fails, the `err_cleanup` path calls `ttls_mpool_exit`, whose per-CPU loop
dereferences the never-initialized NULL slot of CPU 1
(`memset(MPI_POOL_DATA(*ptr), 0, (*ptr)->curr)`), crashing instead of
returning `-ENOMEM`.  When every allocation succeeds, init returns 0. -/
theorem mpool_init_partial_failure_crashes :
    ttls_mpool_init_model [some 4096, none] = .crash ∧
    ttls_mpool_init_model [some 4096, some 8192] = .ok ∧
    InitOutcome.crash ≠ InitOutcome.enomem := by
  decide

/-- Run a sequence of `ttls_mpi_profile_alloc_mpi` calls against one pool at
page address `base`, collecting the returned `(address, size)` pairs.
`none` as soon as one call fails. -/
def allocSeq (base : Nat) (mp : TlsMpiPool) : List Nat → Option (List (Nat × Nat) × TlsMpiPool)
  | [] => some ([], mp)
  | n :: ns =>
    match ttls_mpi_profile_alloc_mpi base mp n with
    | none => none
    | some (p, mp1) =>
      match allocSeq base mp1 ns with
      | none => none
      | some (ps, mpf) => some ((p, n) :: ps, mpf)

/-- The consecutive `(address, size)` ranges a bump allocator hands out,
starting at address `p`. -/
def chunks (p : Nat) : List Nat → List (Nat × Nat)
  | [] => []
  | n :: ns => (p, n) :: chunks (p + n) ns

/-- Two `(address, size)` ranges do not overlap. -/
def rangesDisjoint (r s : Nat × Nat) : Prop :=
  r.1 + r.2 ≤ s.1 ∨ s.1 + s.2 ≤ r.1

lemma chunks_mem (ns : List Nat) :
    ∀ (p : Nat) (r : Nat × Nat), r ∈ chunks p ns →
      p ≤ r.1 ∧ r.1 + r.2 ≤ p + ns.sum ∧ r.2 ∈ ns := by
  induction ns with
  | nil => intro p r hr; simp [chunks] at hr
  | cons n ns ih =>
    intro p r hr
    simp only [chunks, List.mem_cons] at hr
    rcases hr with rfl | hr
    · refine ⟨Nat.le_refl _, ?_, List.mem_cons_self _ _⟩
      simp only [List.sum_cons]
      omega
    · obtain ⟨h1, h2, h3⟩ := ih (p + n) r hr
      refine ⟨by omega, ?_, List.mem_cons_of_mem _ h3⟩
      simp only [List.sum_cons]
      omega

lemma chunks_pairwise (ns : List Nat) :
    ∀ p : Nat, (chunks p ns).Pairwise rangesDisjoint := by
  induction ns with
  | nil => intro p; simp [chunks]
  | cons n ns ih =>
    intro p
    refine List.Pairwise.cons ?_ (ih (p + n))
    intro r hr
    have h := chunks_mem ns (p + n) r hr
    exact Or.inl h.1

lemma allocSeq_eq (base : Nat) (ns : List Nat) :
    ∀ s : Nat, sizeof_TlsMpiPool + s + ns.sum ≤ PAGE_SIZE →
      allocSeq base { curr := s, size := s } ns =
        some (chunks (MPI_POOL_DATA base + s) ns,
              { curr := s + ns.sum, size := s + ns.sum }) := by
  induction ns with
  | nil =>
    intro s h
    simp [allocSeq, chunks]
  | cons n ns ih =>
    intro s h
    simp only [List.sum_cons] at h
    have hok : ¬ (sizeof_TlsMpiPool + s + n > PAGE_SIZE) := by omega
    have ihn := ih (s + n) (by omega)
    simp only [allocSeq, ttls_mpi_profile_alloc_mpi, hok, if_false, ihn, chunks,
      MPI_POOL_FREE_PTR, MPI_POOL_DATA]
    have hB : base + sizeof_TlsMpiPool + (s + n) = base + sizeof_TlsMpiPool + s + n := by
      omega
    have hC : s + n + ns.sum = s + (n :: ns).sum := by
      simp only [List.sum_cons]
      omega
    rw [hB, hC]

/-- C7: for every sequence of `allocate()` calls on one pool (starting from a
fresh zeroed pool, as both the per-CPU temporary pools and the EC profile
pools are created with `__GFP_ZERO`) whose cumulative requested size is at
most the pool's capacity `PAGE_SIZE - sizeof(TlsMpiPool)`, every call
succeeds, every returned address lies within the pool's allocation region
`[MPI_POOL_DATA base, MPI_POOL_DATA base + capacity)`, and the occupied
ranges of distinct (positive-size) allocations never overlap. -/
theorem alloc_seq_within_capacity (base : Nat) (ns : List Nat)
    (hpos : ∀ n ∈ ns, 0 < n)
    (hsum : ns.sum ≤ PAGE_SIZE - sizeof_TlsMpiPool) :
    ∃ ps mpf, allocSeq base { curr := 0, size := 0 } ns = some (ps, mpf) ∧
      (∀ r ∈ ps,
        MPI_POOL_DATA base ≤ r.1 ∧
        r.1 < MPI_POOL_DATA base + (PAGE_SIZE - sizeof_TlsMpiPool) ∧
        r.1 + r.2 ≤ MPI_POOL_DATA base + (PAGE_SIZE - sizeof_TlsMpiPool)) ∧
      ps.Pairwise rangesDisjoint := by
  have hsum16 : sizeof_TlsMpiPool + 0 + ns.sum ≤ PAGE_SIZE := by
    have h16 : sizeof_TlsMpiPool = 16 := rfl
    have h4096 : PAGE_SIZE = 4096 := rfl
    omega
  refine ⟨chunks (MPI_POOL_DATA base + 0) ns,
          { curr := 0 + ns.sum, size := 0 + ns.sum },
          allocSeq_eq base ns 0 hsum16, ?_, chunks_pairwise ns _⟩
  intro r hr
  obtain ⟨h1, h2, h3⟩ := chunks_mem ns (MPI_POOL_DATA base + 0) r hr
  have hrpos : 0 < r.2 := hpos r.2 h3
  refine ⟨by omega, by omega, by omega⟩

/-- Witness for `alloc_seq_within_capacity`: the two allocations 100 and 1000
on a fresh pool at page address 0 all succeed, stay in range and are
disjoint. -/
theorem alloc_seq_within_capacity_witness :
    ∃ ps mpf, allocSeq 0 { curr := 0, size := 0 } [100, 1000] = some (ps, mpf) ∧
      (∀ r ∈ ps,
        MPI_POOL_DATA 0 ≤ r.1 ∧
        r.1 < MPI_POOL_DATA 0 + (PAGE_SIZE - sizeof_TlsMpiPool) ∧
        r.1 + r.2 ≤ MPI_POOL_DATA 0 + (PAGE_SIZE - sizeof_TlsMpiPool)) ∧
      ps.Pairwise rangesDisjoint :=
  alloc_seq_within_capacity 0 [100, 1000] (by decide) (by decide)

/-- Public-key context types (`pkey->pk_info->type`).  `NONE` stands for any
further `ttls_pk_type_t` value, reaching the `default:` arms. -/
inductive PkType
  | ECKEY
  | ECKEY_DH
  | ECDSA
  | RSA
  | NONE
deriving DecidableEq, Repr

/-- `__TTLS_MPI_PROFILES_N`: 8 profile slots, with
`TTLS_MPI_PROFILE_ECDH = 0`. -/
def PROFILES_N : Nat := 8

/-- `ttls_mpi_profile_for_cert(pid, pkey)` ("TODO #1064 implement the proper
switch cases"):

  switch (pkey->pk_info->type) {
  case TTLS_PK_ECKEY:    if (id == TTLS_MPI_PROFILE_ECDH) return true;
                         return false;
  case TTLS_PK_ECKEY_DH: return false;
  case TTLS_PK_ECDSA:    return false;
  case TTLS_PK_RSA:      return false;
  default:               T_ERR(...);
  }
  return false;

(the body's `id` can only denote the `pid` parameter). -/
def ttls_mpi_profile_for_cert (pid : Nat) (pk : PkType) : Bool :=
  match pk with
  | .ECKEY => pid == 0
  | .ECKEY_DH => false
  | .ECDSA => false
  | .RSA => false
  | .NONE => false

/-- Write `v` into slot `i` of a profile table (`mpi_profiles[i].profile = v`). -/
def setSlot (f : Nat → Option Nat) (i : Nat) (v : Option Nat) : Nat → Option Nat :=
  fun j => if j = i then v else f j

/-- The global state `ttls_mpi_profile_set` operates on: the
`mpi_profiles[]` table (slot `i` holds the pool page address, `none` = NULL)
and the function-static flag `has_empty_profile`. -/
structure MpoolState where
  profiles : Nat → Option Nat
  has_empty_profile : Bool

/-- Accumulator of the loop in `ttls_mpi_profile_set`: the local `mp`
(`none` = NULL), the table being mutated, the counter `n`, the number of EC
preparation runs performed (`ttls_mpi_profile_create_ec` calls that
succeeded), and whether the function bailed out with `-EINVAL`. -/
structure LoopSt where
  mp : Option Nat
  profiles : Nat → Option Nat
  n : Nat
  preps : Nat
  err : Bool

/-- The `for (i = 0, n = 0; i < __TTLS_MPI_PROFILES_N; ++i)` loop of
`ttls_mpi_profile_set`.  Per iteration:

  if (mpi_profiles[i].profile) { ++n; continue; }
  if (!ttls_mpi_profile_for_cert(i, pkey)) continue;
  if (!mp) {
    switch (pkey->pk_info->type) {
    case TTLS_PK_ECKEY: case TTLS_PK_ECKEY_DH: case TTLS_PK_ECDSA:
      if (!(mp = ttls_mpi_profile_create_ec(pkey))) return -EINVAL;  break;
    case TTLS_PK_RSA: /* TODO #1064 */ ttls_dhm_init(&hs->dhm_ctx);  break;
    default: T_ERR(...);
    }
  }
  mpi_profiles[i].profile = mp;  ++n;

`createEc` is the result `ttls_mpi_profile_create_ec` would produce (`none`
= failure).  In the `RSA` and `default` arms the C falls through to the
assignment with `mp` still NULL, so the slot is assigned NULL. -/
def profile_set_loop (pk : PkType) (createEc : Option Nat) :
    List Nat → LoopSt → LoopSt
  | [], acc => acc
  | i :: rest, acc =>
    if (acc.profiles i).isSome = true then
      profile_set_loop pk createEc rest { acc with n := acc.n + 1 }
    else if ttls_mpi_profile_for_cert i pk = false then
      profile_set_loop pk createEc rest acc
    else
      match acc.mp with
      | some b =>
        profile_set_loop pk createEc rest
          { acc with profiles := setSlot acc.profiles i (some b), n := acc.n + 1 }
      | none =>
        match pk with
        | .ECKEY | .ECKEY_DH | .ECDSA =>
          match createEc with
          | none => { acc with err := true }
          | some b =>
            profile_set_loop pk createEc rest
              { acc with mp := some b,
                         profiles := setSlot acc.profiles i (some b),
                         n := acc.n + 1,
                         preps := acc.preps + 1 }
        | .RSA =>
          profile_set_loop pk createEc rest
            { acc with profiles := setSlot acc.profiles i none, n := acc.n + 1 }
        | .NONE =>
          profile_set_loop pk createEc rest
            { acc with profiles := setSlot acc.profiles i none, n := acc.n + 1 }

/-- Result of `ttls_mpi_profile_set`: return code, new global state, and how
many EC preparations ran. -/
structure SetOutcome where
  ret : Int
  st : MpoolState
  preps : Nat

/-- `ttls_mpi_profile_set(crt)` for a certificate whose key has type `pk`:

  if (!has_empty_profile) return 0;
  <loop above, starting with the local `mp` UNINITIALIZED>
  if (n == __TTLS_MPI_PROFILES_N) has_empty_profile = false;
  return 0;

The local `TlsMpiPool *mp` is never initialized before its first read in
`if (!mp)`; `mpInit` makes that incidental initial value explicit (`none` =
the garbage happens to be NULL).  `-22` is `-EINVAL`. -/
def ttls_mpi_profile_set (st : MpoolState) (pk : PkType)
    (mpInit createEc : Option Nat) : SetOutcome :=
  if st.has_empty_profile = false then
    { ret := 0, st := st, preps := 0 }
  else
    match profile_set_loop pk createEc (List.range PROFILES_N)
        { mp := mpInit, profiles := st.profiles, n := 0, preps := 0, err := false } with
    | r =>
      if r.err then
        { ret := -22,
          st := { profiles := r.profiles, has_empty_profile := st.has_empty_profile },
          preps := r.preps }
      else
        { ret := 0,
          st := { profiles := r.profiles,
                  has_empty_profile :=
                    if r.n = PROFILES_N then false else st.has_empty_profile },
          preps := r.preps }

/-- `ttls_mpi_profile_alloc(tls)`, the handshake-binding entry point.  Its
body reads `tls->peer_conf->mpi_prof` and the ciphersuite, but both branches
of the `if (ttls_ciphersuite_uses_ecdh(ci) || ttls_ciphersuite_uses_ecdhe(ci))`
are empty (`TODO #1064: copy the 2K data, extend prof if necessary`) and the
function returns 0 unconditionally. -/
def ttls_mpi_profile_alloc (mpi_prof : Option Nat) (uses_ecdh : Bool) : Int :=
  0

/-- The empty registry: all profile slots NULL, `has_empty_profile = true`. -/
def emptyMpoolState : MpoolState :=
  { profiles := fun _ => none, has_empty_profile := true }

/-- First call: an EC certificate on the empty registry. -/
def stEC : SetOutcome := ttls_mpi_profile_set emptyMpoolState .ECKEY none (some 8192)

/-- Second call: an RSA certificate (a distinct, not-yet-created scheme). -/
def stRSA : SetOutcome := ttls_mpi_profile_set stEC.st .RSA none (some 12288)

/-- C4: profile creation is claimed to populate, for two distinct
not-yet-created schemes, each scheme's own profile.  On the code, an ECKEY
certificate populates only slot 0 (`TTLS_MPI_PROFILE_ECDH`) with one
preparation run; a following RSA certificate — a distinct, not-yet-created
scheme — returns 0 (success) yet performs no preparation and leaves every
slot exactly as before, so the second scheme never gets a profile
(`ttls_mpi_profile_for_cert` matches nothing but ECDH; the RSA arm is a
`TODO`).  Moreover, because the local `mp` is read uninitialized, a nonzero
garbage value (here 999) is registered as slot 0's "profile" with zero
preparation runs. -/
theorem profile_set_second_scheme_unpopulated :
    stEC.ret = 0 ∧ stEC.st.profiles 0 = some 8192 ∧ stEC.preps = 1 ∧
    stRSA.ret = 0 ∧ stRSA.preps = 0 ∧
    (∀ i < PROFILES_N, stRSA.st.profiles i = stEC.st.profiles i) ∧
    (∀ i < PROFILES_N, 1 ≤ i → stRSA.st.profiles i = none) ∧
    (ttls_mpi_profile_set emptyMpoolState .ECKEY (some 999) (some 8192)).preps = 0 ∧
    (ttls_mpi_profile_set emptyMpoolState .ECKEY (some 999) (some 8192)).st.profiles 0 =
      some 999 := by
  decide

/-- C8: `bind` is claimed to fail with `ConfigError` when no profile exists
for the scheme, and profile creation is claimed to return `ConfigError` for
schemes with unimplemented preparation (RSA/DH).  On the code,
`ttls_mpi_profile_alloc` returns 0 (success) even when the peer
configuration has no profile at all (`none`), for ECDH(E) and non-ECDH(E)
ciphersuites alike, and `ttls_mpi_profile_set` returns 0 — not an error —
for an RSA certificate while registering nothing. -/
theorem profile_alloc_never_fails :
    ttls_mpi_profile_alloc none true = 0 ∧
    ttls_mpi_profile_alloc none false = 0 ∧
    (ttls_mpi_profile_set emptyMpoolState .RSA none (some 4096)).ret = 0 ∧
    (∀ i < PROFILES_N,
      (ttls_mpi_profile_set emptyMpoolState .RSA none (some 4096)).st.profiles i = none) := by
  decide

lemma profile_set_loop_n_le (pk : PkType) (createEc : Option Nat) :
    ∀ (l : List Nat) (acc : LoopSt),
      (profile_set_loop pk createEc l acc).n ≤ acc.n + l.length := by
  intro l
  induction l with
  | nil => intro acc; simp [profile_set_loop]
  | cons i rest ih =>
    intro acc
    simp only [profile_set_loop, List.length_cons]
    split
    · exact Nat.le_trans (ih _)
        (by show acc.n + 1 + rest.length ≤ acc.n + (rest.length + 1); omega)
    · split
      · exact Nat.le_trans (ih _)
          (by show acc.n + rest.length ≤ acc.n + (rest.length + 1); omega)
      · split
        · exact Nat.le_trans (ih _)
            (by show acc.n + 1 + rest.length ≤ acc.n + (rest.length + 1); omega)
        · split
          · split
            · show acc.n ≤ acc.n + (rest.length + 1); omega
            · exact Nat.le_trans (ih _)
                (by show acc.n + 1 + rest.length ≤ acc.n + (rest.length + 1); omega)
          · split
            · show acc.n ≤ acc.n + (rest.length + 1); omega
            · exact Nat.le_trans (ih _)
                (by show acc.n + 1 + rest.length ≤ acc.n + (rest.length + 1); omega)
          · split
            · show acc.n ≤ acc.n + (rest.length + 1); omega
            · exact Nat.le_trans (ih _)
                (by show acc.n + 1 + rest.length ≤ acc.n + (rest.length + 1); omega)
          · exact Nat.le_trans (ih _)
              (by show acc.n + 1 + rest.length ≤ acc.n + (rest.length + 1); omega)
          · exact Nat.le_trans (ih _)
              (by show acc.n + 1 + rest.length ≤ acc.n + (rest.length + 1); omega)

lemma profile_set_loop_frame (pk : PkType) (createEc : Option Nat) :
    ∀ (l : List Nat) (acc : LoopSt) (j : Nat), j ∉ l →
      (profile_set_loop pk createEc l acc).profiles j = acc.profiles j := by
  intro l
  induction l with
  | nil => intro acc j hj; rfl
  | cons i rest ih =>
    intro acc j hj
    have hji : j ≠ i := fun h => hj (h ▸ List.mem_cons_self i rest)
    have hjr : j ∉ rest := fun h => hj (List.mem_cons_of_mem i h)
    simp only [profile_set_loop]
    split
    · exact ih _ _ hjr
    · split
      · exact ih _ _ hjr
      · split
        · rw [ih _ _ hjr]; simp [setSlot, hji]
        · split
          · split
            · rfl
            · rw [ih _ _ hjr]; simp [setSlot, hji]
          · split
            · rfl
            · rw [ih _ _ hjr]; simp [setSlot, hji]
          · split
            · rfl
            · rw [ih _ _ hjr]; simp [setSlot, hji]
          · rw [ih _ _ hjr]; simp [setSlot, hji]
          · rw [ih _ _ hjr]; simp [setSlot, hji]

lemma profile_set_loop_full (pk : PkType) (createEc : Option Nat) :
    ∀ (l : List Nat) (acc : LoopSt), l.Nodup →
      (profile_set_loop pk createEc l acc).err = false →
      (profile_set_loop pk createEc l acc).n = acc.n + l.length →
      ∀ i ∈ l, ((profile_set_loop pk createEc l acc).profiles i).isSome = true := by
  intro l
  induction l with
  | nil => intro acc _ _ _ i hi; simp at hi
  | cons k rest ih =>
    intro acc hnd herr hn i hi
    have hknr : k ∉ rest := (List.nodup_cons.mp hnd).1
    have hndr : rest.Nodup := (List.nodup_cons.mp hnd).2
    simp only [profile_set_loop, List.length_cons] at herr hn ⊢
    revert herr hn
    split
    · -- slot k already populated
      intro herr hn
      rename_i hsome
      rcases List.mem_cons.mp hi with rfl | hir
      · rw [profile_set_loop_frame _ _ rest _ i hknr]
        exact hsome
      · exact ih _ hndr herr
          (by rw [hn]; show acc.n + (rest.length + 1) = acc.n + 1 + rest.length; omega) i hir
    · split
      · -- ¬for_cert: n cannot reach acc.n + (length + 1)
        intro herr hn
        have hle := profile_set_loop_n_le pk createEc rest acc
        omega
      · rename_i hcert
        split
        · -- acc.mp = some b: slot k := some b
          intro herr hn
          rcases List.mem_cons.mp hi with rfl | hir
          · rw [profile_set_loop_frame _ _ rest _ i hknr]
            simp [setSlot]
          · exact ih _ hndr herr
              (by rw [hn]; show acc.n + (rest.length + 1) = acc.n + 1 + rest.length; omega) i hir
        · split
          · -- pk = ECKEY
            split
            · -- createEc = none: err = true
              intro herr hn
              exact absurd herr (by simp)
            · intro herr hn
              rcases List.mem_cons.mp hi with rfl | hir
              · rw [profile_set_loop_frame _ _ rest _ i hknr]
                simp [setSlot]
              · exact ih _ hndr herr
                  (by rw [hn]; show acc.n + (rest.length + 1) = acc.n + 1 + rest.length; omega) i hir
          · -- pk = ECKEY_DH
            split
            · intro herr hn
              exact absurd herr (by simp)
            · intro herr hn
              rcases List.mem_cons.mp hi with rfl | hir
              · rw [profile_set_loop_frame _ _ rest _ i hknr]
                simp [setSlot]
              · exact ih _ hndr herr
                  (by rw [hn]; show acc.n + (rest.length + 1) = acc.n + 1 + rest.length; omega) i hir
          · -- pk = ECDSA
            split
            · intro herr hn
              exact absurd herr (by simp)
            · intro herr hn
              rcases List.mem_cons.mp hi with rfl | hir
              · rw [profile_set_loop_frame _ _ rest _ i hknr]
                simp [setSlot]
              · exact ih _ hndr herr
                  (by rw [hn]; show acc.n + (rest.length + 1) = acc.n + 1 + rest.length; omega) i hir
          · -- pk = RSA: for_cert k RSA = false, contradiction with the guard
            exact (hcert rfl).elim
          · -- pk = NONE: for_cert k NONE = false, contradiction with the guard
            exact (hcert rfl).elim

/-- C6: the `has_empty_profile` optimization flag ("all profiles filled" =
`false`) never transitions back from "all filled" to "not all filled" —
once it is `false`, `ttls_mpi_profile_set` returns immediately and changes
nothing — and it is set to "all filled" only after every one of the
`__TTLS_MPI_PROFILES_N` profile slots actually holds a registered profile
(the loop counter `n` reaches `PROFILES_N` only if every visited slot is,
or has just been made, non-NULL). -/
theorem has_empty_profile_flag_sound (st : MpoolState) (pk : PkType)
    (mpInit createEc : Option Nat) :
    (st.has_empty_profile = false →
      (ttls_mpi_profile_set st pk mpInit createEc).st = st) ∧
    ((ttls_mpi_profile_set st pk mpInit createEc).st.has_empty_profile = false →
      st.has_empty_profile = false ∨
        ∀ i < PROFILES_N,
          ((ttls_mpi_profile_set st pk mpInit createEc).st.profiles i).isSome = true) := by
  constructor
  · intro h
    simp [ttls_mpi_profile_set, h]
  · intro h
    by_cases hf : st.has_empty_profile = false
    · exact Or.inl hf
    · right
      have hft : st.has_empty_profile = true := by
        revert hf
        cases st.has_empty_profile <;> simp
      simp only [ttls_mpi_profile_set, hft] at h ⊢
      revert h
      simp only [Bool.true_eq_false, if_false]
      intro h
      by_cases herr :
        (profile_set_loop pk createEc (List.range PROFILES_N)
          { mp := mpInit, profiles := st.profiles, n := 0, preps := 0, err := false }).err = true
      · -- -EINVAL path: the flag is left as it was (true), contradicting h
        rw [if_pos herr] at h
        simp at h
      · rw [if_neg herr] at h ⊢
        by_cases hn :
          (profile_set_loop pk createEc (List.range PROFILES_N)
            { mp := mpInit, profiles := st.profiles, n := 0, preps := 0, err := false }).n =
            PROFILES_N
        · -- n = PROFILES_N: every slot of the final table is populated
          intro i hilt
          have hfull := profile_set_loop_full pk createEc (List.range PROFILES_N)
            { mp := mpInit, profiles := st.profiles, n := 0, preps := 0, err := false }
            (List.nodup_range _)
            (by revert herr; cases (profile_set_loop pk createEc (List.range PROFILES_N)
              { mp := mpInit, profiles := st.profiles, n := 0, preps := 0, err := false }).err <;>
              simp)
            (by rw [hn]; simp [PROFILES_N])
          exact hfull i (List.mem_range.mpr hilt)
        · -- n ≠ PROFILES_N: the flag stays true, contradicting h
          rw [if_neg hn] at h
          simp at h

/-- Witness for `has_empty_profile_flag_sound`: on a registry whose eight
slots are all populated (flag still `true`), one further call flips the flag
to "all filled", and indeed every slot is populated at that point. -/
theorem has_empty_profile_flag_sound_witness :
    (ttls_mpi_profile_set { profiles := fun _ => some 4096, has_empty_profile := true }
        PkType.NONE none none).st.has_empty_profile = false ∧
    ∀ i < PROFILES_N,
      ((ttls_mpi_profile_set { profiles := fun _ => some 4096, has_empty_profile := true }
          PkType.NONE none none).st.profiles i).isSome = true := by
  constructor
  · decide
  · have h := (has_empty_profile_flag_sound
      { profiles := fun _ => some 4096, has_empty_profile := true } PkType.NONE none none).2
      (by decide)
    rcases h with h | h
    · exact absurd h (by decide)
    · exact h
